import Mathlib

/-!
Shallow embedding of the tic-tac-toe game-state engine (`src/game-state.go`).

The Go source keeps a mutable `GameState`; here every operation is a pure
function returning the new state.  Go arrays indexed by `int` coordinates
become functions out of `Fin boardSize`; the raw `int` move coordinates
supplied by callers stay `Int` until `makeMove` validates them, and the
bounds-unchecked array accesses the source performs after validation are
rendered with the total conversion `toIdx` (which coincides with the plain
coordinate whenever it is in range, i.e. wherever the source uses it).
-/

namespace TicTacToe

/-- Source constant `boardSize = 3`. -/
abbrev boardSize : Nat := 3

/-- A piece on the game board: `O` (player 1), `X` (player 2), `B` (blank). -/
inductive Piece where
  | O
  | X
  | B
deriving DecidableEq, Repr

open Piece

/-- Go `type Board [boardSize][boardSize]Piece`. -/
def Board := Fin boardSize → Fin boardSize → Piece

instance : DecidableEq Board := by unfold Board; infer_instance

/-- Go `type PlayerCounts struct`: counts of one player's pieces in each row,
column, and the two diagonals. -/
structure PlayerCounts where
  rows : Fin boardSize → Nat
  cols : Fin boardSize → Nat
  diags : Fin 2 → Nat

instance : DecidableEq PlayerCounts := fun a b =>
  decidable_of_iff (a.rows = b.rows ∧ a.cols = b.cols ∧ a.diags = b.diags)
    (by cases a; cases b; simp)

/-- The result of a game move. -/
inductive GameResult where
  | OWin
  | XWin
  | Tie
  | Pending
deriving DecidableEq, Repr

open GameResult

/-- Go `type GameState struct`. -/
structure GameState where
  board : Board
  currPiece : Piece
  currPlayer : String
  nextPlayer : String
  oCounts : PlayerCounts
  xCounts : PlayerCounts
  totalPieces : Nat

instance : DecidableEq GameState := fun a b =>
  decidable_of_iff
    (a.board = b.board ∧ a.currPiece = b.currPiece ∧ a.currPlayer = b.currPlayer ∧
      a.nextPlayer = b.nextPlayer ∧ a.oCounts = b.oCounts ∧ a.xCounts = b.xCounts ∧
      a.totalPieces = b.totalPieces)
    (by cases a; cases b; simp)

/-- The validation failures of `makeMove`; the source reports them as
`fmt.Errorf` values, distinguished here as the typed taxonomy of §7. -/
inductive MoveError where
  | WrongTurn
  | OutOfRange
  | CellOccupied
deriving DecidableEq, Repr

/-- The `(err, GameResult)` pair returned by the Go `makeMove`, together with
the state after the call (the Go code mutates `game` in place). -/
structure MoveOut where
  err : Option MoveError
  result : GameResult
  state : GameState

/-- Go `func initBoard`: fill the board with blanks. -/
def initBoard : Board := fun _ _ => B

/-- All-zero counters, the Go zero value of `PlayerCounts`. -/
def zeroCounts : PlayerCounts :=
  { rows := fun _ => 0, cols := fun _ => 0, diags := fun _ => 0 }

/-- Go `func startGame`: the struct literal
`&GameState{board: &board, currPiece: O, currPlayer: userA}` omits
`nextPlayer`, `oCounts`, `xCounts` and `totalPieces`, so those fields take
their Go zero values: the empty string, all-zero counters, and `0`.  The
registry write (`currentGames[key] = game`) is outside the embedded core. -/
def startGame (userA : String) (userB : String) : GameState :=
  { board := initBoard
    currPiece := O
    currPlayer := userA
    nextPlayer := ""
    oCounts := zeroCounts
    xCounts := zeroCounts
    totalPieces := 0 }

/-- Go `func getDiag`: diagonal index of a cell, `0` for the main diagonal,
`1` for the anti-diagonal, `-1` otherwise, exactly as the early-return
chain in the source computes it; `boardSize - 1` is the source's local
`last`. -/
def getDiag (x : Int) (y : Int) : Int :=
  if (x = 0 ∧ y = 0) ∨ (x = (boardSize : Int) - 1 ∧ y = (boardSize : Int) - 1) then 0
  else if (x = (boardSize : Int) - 1 ∧ y = 0) ∨ (x = 0 ∧ y = (boardSize : Int) - 1) then 1
  else -1

/-- Index into the 2-element `diags` array; used only under the source's
`diag >= 0` guard, where `getDiag` has produced `0` or `1`. -/
def diagIdx (d : Int) : Fin 2 :=
  if d = 1 then 1 else 0

/-- Total rendering of the source's unchecked `int` array indexing: on the
validated in-range coordinates it is the identity embedding into
`Fin boardSize`. -/
def toIdx (n : Int) : Fin boardSize :=
  ⟨n.toNat % boardSize, Nat.mod_lt _ (by decide)⟩

/-- Go `func checkGameOver`: win/tie evaluation for the piece just placed at
`(x, y)`.  The two branches are transcribed literally from the source; note
the X branch reads `game.xCounts.cols[x]` where the O branch reads
`game.oCounts.cols[y]`. -/
def checkGameOver (game : GameState) (x y : Int) : GameResult :=
  if game.currPiece = O then
    -- the source's locals diagWin, rowWin, colWin, inlined as the three
    -- disjuncts of the win test
    if (0 ≤ getDiag x y ∧ game.oCounts.diags (diagIdx (getDiag x y)) = boardSize) ∨
        game.oCounts.rows (toIdx x) = boardSize ∨
        game.oCounts.cols (toIdx y) = boardSize then OWin
    else if game.totalPieces = boardSize * boardSize then Tie
    else Pending
  else
    -- the X branch of the source reads cols[x], not cols[y]
    if (0 ≤ getDiag x y ∧ game.xCounts.diags (diagIdx (getDiag x y)) = boardSize) ∨
        game.xCounts.rows (toIdx x) = boardSize ∨
        game.xCounts.cols (toIdx x) = boardSize then XWin
    else if game.totalPieces = boardSize * boardSize then Tie
    else Pending

/-- Write a piece into one cell of the board (`*board[x][y] = piece`). -/
def setCell (b : Board) (ix iy : Fin boardSize) (p : Piece) : Board :=
  fun i j => if i = ix ∧ j = iy then p else b i j

/-- The counter-increment block of `makeMove` (identical for the two
players in the source, applied to `oCounts` resp. `xCounts`): bump the row
counter at `x`, the column counter at `y`, and, when `getDiag` is
non-negative, the matching diagonal counter. -/
def incrCounts (c : PlayerCounts) (ix iy : Fin boardSize) (diag : Int) : PlayerCounts :=
  { rows := fun i => if i = ix then c.rows i + 1 else c.rows i
    cols := fun j => if j = iy then c.cols j + 1 else c.cols j
    diags :=
      if 0 ≤ diag then
        fun d => if d = diagIdx diag then c.diags d + 1 else c.diags d
      else c.diags }

/-- The mutation block of a validated `makeMove` (source lines 185-202):
place the current piece at `(x, y)`, bump `totalPieces`, and bump the
moving player's counters. -/
def placePiece (game : GameState) (x y : Int) : GameState :=
  let ix := toIdx x
  let iy := toIdx y
  let diag := getDiag x y
  if game.currPiece = O then
    { game with
      board := setCell game.board ix iy game.currPiece
      totalPieces := game.totalPieces + 1
      oCounts := incrCounts game.oCounts ix iy diag }
  else
    { game with
      board := setCell game.board ix iy game.currPiece
      totalPieces := game.totalPieces + 1
      xCounts := incrCounts game.xCounts ix iy diag }

/-- Go `func makeMove`: validate (turn, range, occupancy, in that order),
place the current piece and bump the mover's counters, evaluate
`checkGameOver`, and on `Pending` flip the piece and swap the players. -/
def makeMove (game : GameState) (user : String) (x y : Int) : MoveOut :=
  if user ≠ game.currPlayer then
    ⟨some MoveError.WrongTurn, Pending, game⟩
  else if x < 0 ∨ (boardSize : Int) ≤ x ∨ y < 0 ∨ (boardSize : Int) ≤ y then
    ⟨some MoveError.OutOfRange, Pending, game⟩
  else if game.board (toIdx x) (toIdx y) ≠ B then
    ⟨some MoveError.CellOccupied, Pending, game⟩
  else
    let game' := placePiece game x y
    let gameResult := checkGameOver game' x y
    if gameResult ≠ Pending then
      ⟨none, gameResult, game'⟩
    else
      ⟨none, Pending,
        { game' with
          currPiece := if game.currPiece = O then X else O
          currPlayer := game.nextPlayer
          nextPlayer := user }⟩

/-- Run a list of `(user, x, y)` move requests from a state, threading the
state through `makeMove`; the second component counts how many of the calls
succeeded (returned a `nil` error). -/
def runMoves : GameState → List (String × Int × Int) → GameState × Nat
  | g, [] => (g, 0)
  | g, (u, x, y) :: ms =>
      ((runMoves (makeMove g u x y).state ms).1,
        (if (makeMove g u x y).err = none then 1 else 0) +
          (runMoves (makeMove g u x y).state ms).2)

/-- Number of non-blank cells on a board. -/
def countNonBlank (b : Board) : Nat :=
  (Finset.univ.filter fun p : Fin boardSize × Fin boardSize => b p.1 p.2 ≠ B).card

/-- Modelled from the spec: "exhaustively scanning all rows/columns/diagonals
for N-in-a-row" (§8).  True when player `p` fully occupies some row, some
column, or one of the two diagonals of the board.  The repository has no
such scanner; this is the reference side of the refinement comparison. -/
def specScanWin (b : Board) (p : Piece) : Bool :=
  ((List.finRange boardSize).any fun i => (List.finRange boardSize).all fun j => b i j == p) ||
  ((List.finRange boardSize).any fun j => (List.finRange boardSize).all fun i => b i j == p) ||
  ((List.finRange boardSize).all fun i => b i i == p) ||
  ((List.finRange boardSize).all fun i => b i ⟨boardSize - 1 - i.val, by omega⟩ == p)

/-- Modelled from the spec: the winner a full-board rescan reports, if any. -/
def specScanWinner (b : Board) : Option Piece :=
  if specScanWin b O then some O
  else if specScanWin b X then some X
  else none

/-!  ### Invariant definitions and concrete scenario states  -/

/-- The inductive invariant behind claim C7: in any state arising from play,
the piece to move is a real piece (never `B`) and `totalPieces` counts the
non-blank cells. -/
def StateInv (g : GameState) : Prop :=
  g.currPiece ≠ B ∧ g.totalPieces = countNonBlank g.board

/-- The inductive invariant behind claim C10: each diagonal counter equals
the number of that player's pieces on the two *corner* cells of that
diagonal — the only cells `getDiag` ever attributes to a diagonal. -/
def DiagInv (g : GameState) : Prop :=
  g.oCounts.diags 0 =
      (if g.board (toIdx 0) (toIdx 0) = O then 1 else 0) +
      (if g.board (toIdx 2) (toIdx 2) = O then 1 else 0) ∧
  g.oCounts.diags 1 =
      (if g.board (toIdx 2) (toIdx 0) = O then 1 else 0) +
      (if g.board (toIdx 0) (toIdx 2) = O then 1 else 0) ∧
  g.xCounts.diags 0 =
      (if g.board (toIdx 0) (toIdx 0) = X then 1 else 0) +
      (if g.board (toIdx 2) (toIdx 2) = X then 1 else 0) ∧
  g.xCounts.diags 1 =
      (if g.board (toIdx 2) (toIdx 0) = X then 1 else 0) +
      (if g.board (toIdx 0) (toIdx 2) = X then 1 else 0)

/-- First scenario move: the first player plays `(0,0)`. -/
def c9s1 : MoveOut := makeMove (startGame "alice" "bob") "alice" 0 0

/-- Second scenario move: the second player plays `(1,0)`. -/
def c9s2 : MoveOut := makeMove c9s1.state "bob" 1 0

/-- Reachable state (five successful moves) in which X is about to complete
column 2 by playing `(1, 2)`: X already holds `(0,2)` and `(2,2)`. -/
def c1pre : GameState :=
  (runMoves (startGame "alice" "bob")
    [("alice", 0, 0), ("", 0, 2), ("alice", 1, 0), ("", 2, 2), ("alice", 1, 1)]).1

/-- State `c1pre` with X's piece placed at `(1, 2)`, exactly the state on which
`makeMove` invokes `checkGameOver`. -/
def c1game : GameState := placePiece c1pre 1 2

/-- Reachable state (four successful moves) in which O holds `(0,0)` and
`(1,1)` and is about to complete the main diagonal at `(2,2)`. -/
def c2pre : GameState :=
  (runMoves (startGame "alice" "bob")
    [("alice", 0, 0), ("", 0, 1), ("alice", 1, 1), ("", 1, 0)]).1

/-- Eight-move reachable prefix of a board-filling game in which O's ninth
move at the center completes the main diagonal. -/
def c8diag : GameState :=
  (runMoves (startGame "alice" "bob")
    [("alice", 0, 0), ("", 0, 2), ("alice", 2, 2), ("", 1, 2),
     ("alice", 0, 1), ("", 2, 0), ("alice", 1, 0), ("", 2, 1)]).1

/-- Eight-move reachable prefix of a drawn game: O's ninth move at `(2,2)`
fills the board with no three-in-a-row anywhere. -/
def c8tie : GameState :=
  (runMoves (startGame "alice" "bob")
    [("alice", 0, 0), ("", 0, 1), ("alice", 0, 2), ("", 1, 1),
     ("alice", 1, 0), ("", 1, 2), ("alice", 2, 1), ("", 2, 0)]).1

/-- Eight-move reachable prefix after which O's ninth move at `(0,2)` both
fills the board and completes row 0. -/
def c8row : GameState :=
  (runMoves (startGame "alice" "bob")
    [("alice", 0, 0), ("", 1, 1), ("alice", 0, 1), ("", 1, 2),
     ("alice", 1, 0), ("", 2, 0), ("alice", 2, 1), ("", 2, 2)]).1

/-!  ### Small computation lemmas  -/

lemma toIdx_ofNat_zero : toIdx 0 = (0 : Fin boardSize) := rfl

lemma toIdx_ofNat_one : toIdx 1 = (1 : Fin boardSize) := rfl

lemma toIdx_ofNat_two : toIdx 2 = (2 : Fin boardSize) := rfl

/-!  ### Claim C3: diagonal classification  -/

/-- C3 counterexample: the claim says `getDiag` returns `0` whenever
`x = y` (here the in-range center cell `(1,1)`), but the source's
corner-only tests return `-1` there. -/
theorem C3_getDiag_counterexample :
    getDiag 1 1 = -1 ∧ (1 : Int) = 1 ∧ ¬ getDiag 1 1 = 0 := by decide

/-- C3 (amended): for in-range coordinates, `getDiag` returns `0` exactly on
the two corner cells of the main diagonal (`x = y` and `x ≠ 1`), `1` exactly
on the two corner cells of the anti-diagonal (`x + y = N - 1` and `x ≠ 1`),
and `-1` otherwise; the center cell `(1,1)`, though on both diagonals, is
classified as no diagonal. -/
theorem C3_getDiag_corrected (x y : Int)
    (hx0 : 0 ≤ x) (hx1 : x < boardSize) (hy0 : 0 ≤ y) (hy1 : y < boardSize) :
    getDiag x y =
      if x = y ∧ x ≠ 1 then 0
      else if x + y = (boardSize : Int) - 1 ∧ x ≠ 1 then 1
      else -1 := by
  interval_cases x <;> interval_cases y <;> decide

/-- C3 witness: the amended characterization evaluated at the concrete
in-range corner `(0, 2)`. -/
theorem C3_getDiag_corrected_witness :
    getDiag 0 2 =
      if (0 : Int) = 2 ∧ (0 : Int) ≠ 1 then 0
      else if (0 : Int) + 2 = (boardSize : Int) - 1 ∧ (0 : Int) ≠ 1 then 1
      else -1 :=
  C3_getDiag_corrected 0 2 (by decide) (by decide) (by decide) (by decide)

/-!  ### Claim C4: startGame initialization  -/

/-- C4: `startGame` produces the all-blank board, zero counters, `O` to
move, `userA` as current mover and `totalPieces = 0` as claimed — but the
Go struct literal omits `nextPlayer`, which therefore holds the zero value
`""` instead of the claimed `userB = "bob"`. -/
theorem C4_startGame_nextPlayer_bug :
    (∀ i j : Fin boardSize, (startGame "alice" "bob").board i j = B) ∧
    (∀ i : Fin boardSize,
      (startGame "alice" "bob").oCounts.rows i = 0 ∧
      (startGame "alice" "bob").oCounts.cols i = 0 ∧
      (startGame "alice" "bob").xCounts.rows i = 0 ∧
      (startGame "alice" "bob").xCounts.cols i = 0) ∧
    (∀ d : Fin 2,
      (startGame "alice" "bob").oCounts.diags d = 0 ∧
      (startGame "alice" "bob").xCounts.diags d = 0) ∧
    (startGame "alice" "bob").currPiece = O ∧
    (startGame "alice" "bob").currPlayer = "alice" ∧
    (startGame "alice" "bob").totalPieces = 0 ∧
    (startGame "alice" "bob").nextPlayer = "" ∧
    (startGame "alice" "bob").nextPlayer ≠ "bob" := by decide

/-!  ### Claim C9: the five-move column-win scenario  -/

/-- C9: in the claimed scenario the first move succeeds, but the second
move — by the second player, as the scenario requires — is rejected with
`WrongTurn`: `startGame` left `nextPlayer` as the zero value `""`, so after
the first move the turn passes to the empty-named player, never to "bob". -/
theorem C9_second_move_rejected :
    c9s1.err = none ∧ c9s1.result = GameResult.Pending ∧
    c9s1.state.currPlayer = "" ∧
    c9s2.err = some MoveError.WrongTurn ∧
    c9s2.state.board (toIdx 1) (toIdx 0) = B := by decide

/-!  ### Claim C1: the win formula of checkGameOver  -/

/-- C1: the claimed formula holds for the just-moved player X at `(1, 2)` —
`colCount[y] = colCount[2] = N`, no row or diagonal involved — so the claim
demands `XWin`; but `checkGameOver` reads `xCounts.cols[x] = cols[1]` in the
X branch and returns `Pending`.  The five set-up moves and the move itself
all pass validation. -/
theorem C1_colCount_bug :
    (runMoves (startGame "alice" "bob")
      [("alice", 0, 0), ("", 0, 2), ("alice", 1, 0), ("", 2, 2), ("alice", 1, 1)]).2 = 5 ∧
    c1game.currPiece = X ∧
    c1game.xCounts.cols (toIdx 2) = boardSize ∧
    c1game.xCounts.rows (toIdx 1) ≠ boardSize ∧
    getDiag 1 2 < 0 ∧
    checkGameOver c1game 1 2 = GameResult.Pending ∧
    (makeMove c1pre "" 1 2).err = none ∧
    (makeMove c1pre "" 1 2).result = GameResult.Pending := by decide

/-!  ### Claim C2: incremental win detection vs full-board rescan  -/

/-- C2: on a board reachable by successful moves, the incremental evaluation
disagrees with the full-board rescan: O's fifth move completes the main
diagonal, the rescan reports O as winner, but `makeMove` (whose result is
`checkGameOver` on the updated counters) returns `Pending` — the center cell
`(1,1)` never incremented a diagonal counter, so the count stuck at 2. -/
theorem C2_incremental_scan_mismatch :
    (runMoves (startGame "alice" "bob")
      [("alice", 0, 0), ("", 0, 1), ("alice", 1, 1), ("", 1, 0)]).2 = 4 ∧
    (makeMove c2pre "alice" 2 2).err = none ∧
    (makeMove c2pre "alice" 2 2).result = GameResult.Pending ∧
    specScanWinner (makeMove c2pre "alice" 2 2).state.board = some Piece.O := by decide

/-!  ### Structural lemmas about makeMove  -/

lemma makeMove_of_wrongTurn (g : GameState) (u : String) (x y : Int)
    (h : u ≠ g.currPlayer) :
    makeMove g u x y = ⟨some MoveError.WrongTurn, Pending, g⟩ := by
  unfold makeMove
  rw [if_pos h]

lemma makeMove_of_outOfRange (g : GameState) (u : String) (x y : Int)
    (h1 : u = g.currPlayer)
    (h2 : x < 0 ∨ (boardSize : Int) ≤ x ∨ y < 0 ∨ (boardSize : Int) ≤ y) :
    makeMove g u x y = ⟨some MoveError.OutOfRange, Pending, g⟩ := by
  unfold makeMove
  rw [if_neg (by simp [h1]), if_pos h2]

lemma makeMove_of_occupied (g : GameState) (u : String) (x y : Int)
    (h1 : u = g.currPlayer)
    (h2 : ¬(x < 0 ∨ (boardSize : Int) ≤ x ∨ y < 0 ∨ (boardSize : Int) ≤ y))
    (h3 : g.board (toIdx x) (toIdx y) ≠ B) :
    makeMove g u x y = ⟨some MoveError.CellOccupied, Pending, g⟩ := by
  unfold makeMove
  rw [if_neg (by simp [h1]), if_neg h2, if_pos h3]

lemma makeMove_of_valid (g : GameState) (u : String) (x y : Int)
    (h1 : u = g.currPlayer)
    (h2 : ¬(x < 0 ∨ (boardSize : Int) ≤ x ∨ y < 0 ∨ (boardSize : Int) ≤ y))
    (h3 : g.board (toIdx x) (toIdx y) = B) :
    makeMove g u x y =
      if checkGameOver (placePiece g x y) x y ≠ Pending then
        ⟨none, checkGameOver (placePiece g x y) x y, placePiece g x y⟩
      else
        ⟨none, Pending,
          { placePiece g x y with
            currPiece := if g.currPiece = O then X else O
            currPlayer := g.nextPlayer
            nextPlayer := u }⟩ := by
  unfold makeMove
  rw [if_neg (by simp [h1]), if_neg h2, if_neg (by simp [h3])]

/-- Every `makeMove` call either fails one of the three validation checks —
leaving the state untouched and returning `Pending` — or passes all of them
and hands back the placed-and-counted state `placePiece g x y`, with the
result computed by `checkGameOver` on it. -/
lemma makeMove_shape (g : GameState) (u : String) (x y : Int) :
    ((makeMove g u x y).err ≠ none ∧ (makeMove g u x y).state = g ∧
      (makeMove g u x y).result = Pending) ∨
    ((makeMove g u x y).err = none ∧
      u = g.currPlayer ∧
      ¬(x < 0 ∨ (boardSize : Int) ≤ x ∨ y < 0 ∨ (boardSize : Int) ≤ y) ∧
      g.board (toIdx x) (toIdx y) = B ∧
      (makeMove g u x y).result = checkGameOver (placePiece g x y) x y ∧
      (makeMove g u x y).state.board = (placePiece g x y).board ∧
      (makeMove g u x y).state.oCounts = (placePiece g x y).oCounts ∧
      (makeMove g u x y).state.xCounts = (placePiece g x y).xCounts ∧
      (makeMove g u x y).state.totalPieces = (placePiece g x y).totalPieces ∧
      ((makeMove g u x y).state.currPiece = g.currPiece ∨
        (makeMove g u x y).state.currPiece = (if g.currPiece = O then X else O))) := by
  by_cases h1 : u = g.currPlayer
  · by_cases h2 : x < 0 ∨ (boardSize : Int) ≤ x ∨ y < 0 ∨ (boardSize : Int) ≤ y
    · rw [makeMove_of_outOfRange g u x y h1 h2]
      exact Or.inl ⟨by simp, rfl, rfl⟩
    · by_cases h3 : g.board (toIdx x) (toIdx y) = B
      · rw [makeMove_of_valid g u x y h1 h2 h3]
        refine Or.inr ?_
        split
        · exact ⟨rfl, h1, h2, h3, rfl, rfl, rfl, rfl, rfl,
            Or.inl (by unfold placePiece; split <;> rfl)⟩
        · next hres =>
          refine ⟨rfl, h1, h2, h3, ?_, rfl, rfl, rfl, rfl, Or.inr rfl⟩
          simp only [ne_eq, not_not] at hres
          exact hres.symm
      · rw [makeMove_of_occupied g u x y h1 h2 h3]
        exact Or.inl ⟨by simp, rfl, rfl⟩
  · rw [makeMove_of_wrongTurn g u x y h1]
    exact Or.inl ⟨by simp, rfl, rfl⟩

/-!  ### Claim C5: validation checks, their order, and error reporting  -/

/-- C5: `makeMove` fails with `WrongTurn` exactly when the mover is not the
current player; otherwise with `OutOfRange` exactly when a coordinate is
outside `[0, N)`; otherwise with `CellOccupied` exactly when the target cell
is non-blank; each failure comes with a `Pending` result, and the error is
`none` exactly when all three checks pass. -/
theorem C5_validation_order (g : GameState) (u : String) (x y : Int) :
    ((makeMove g u x y).err = some MoveError.WrongTurn ↔ u ≠ g.currPlayer) ∧
    ((makeMove g u x y).err = some MoveError.OutOfRange ↔
      u = g.currPlayer ∧
        (x < 0 ∨ (boardSize : Int) ≤ x ∨ y < 0 ∨ (boardSize : Int) ≤ y)) ∧
    ((makeMove g u x y).err = some MoveError.CellOccupied ↔
      u = g.currPlayer ∧
        ¬(x < 0 ∨ (boardSize : Int) ≤ x ∨ y < 0 ∨ (boardSize : Int) ≤ y) ∧
        g.board (toIdx x) (toIdx y) ≠ B) ∧
    ((makeMove g u x y).err = none ↔
      u = g.currPlayer ∧
        ¬(x < 0 ∨ (boardSize : Int) ≤ x ∨ y < 0 ∨ (boardSize : Int) ≤ y) ∧
        g.board (toIdx x) (toIdx y) = B) ∧
    (∀ e : MoveError,
      (makeMove g u x y).err = some e → (makeMove g u x y).result = GameResult.Pending) := by
  by_cases h1 : u = g.currPlayer
  · by_cases h2 : x < 0 ∨ (boardSize : Int) ≤ x ∨ y < 0 ∨ (boardSize : Int) ≤ y
    · rw [makeMove_of_outOfRange g u x y h1 h2]
      exact ⟨by simp [h1], iff_of_true rfl ⟨h1, h2⟩,
        ⟨fun hc => by simp at hc, fun hh => absurd h2 hh.2.1⟩,
        ⟨fun hc => by simp at hc, fun hh => absurd h2 hh.2.1⟩,
        fun e _ => rfl⟩
    · by_cases h3 : g.board (toIdx x) (toIdx y) = B
      · rw [makeMove_of_valid g u x y h1 h2 h3]
        split <;>
          exact ⟨⟨fun hc => by simp at hc, fun hne => absurd h1 hne⟩,
            ⟨fun hc => by simp at hc, fun hh => absurd hh.2 h2⟩,
            ⟨fun hc => by simp at hc, fun hh => absurd h3 hh.2.2⟩,
            iff_of_true rfl ⟨h1, h2, h3⟩,
            fun e he => by simp at he⟩
      · rw [makeMove_of_occupied g u x y h1 h2 h3]
        exact ⟨by simp [h1],
          ⟨fun hc => by simp at hc, fun hh => absurd hh.2 h2⟩,
          iff_of_true rfl ⟨h1, h2, h3⟩,
          ⟨fun hc => by simp at hc, fun hh => absurd hh.2.2 h3⟩,
          fun e _ => rfl⟩
  · rw [makeMove_of_wrongTurn g u x y h1]
    exact ⟨by simp [h1],
      ⟨fun hc => by simp at hc, fun hh => absurd hh.1 h1⟩,
      ⟨fun hc => by simp at hc, fun hh => absurd hh.1 h1⟩,
      ⟨fun hc => by simp at hc, fun hh => absurd hh.1 h1⟩,
      fun e _ => rfl⟩

/-- C5 witness: a move by a non-current player is rejected as `WrongTurn`
with a `Pending` result. -/
theorem C5_validation_order_witness :
    (makeMove (startGame "alice" "bob") "zed" 0 0).err = some MoveError.WrongTurn ∧
    (makeMove (startGame "alice" "bob") "zed" 0 0).result = GameResult.Pending := by
  have h := C5_validation_order (startGame "alice" "bob") "zed" 0 0
  exact ⟨h.1.mpr (by decide), h.2.2.2.2 MoveError.WrongTurn (h.1.mpr (by decide))⟩

/-!  ### Claim C6: failing moves have no side effects  -/

/-- C6: whenever `makeMove` reports a validation error, the returned state
is exactly the input state — board, both counter sets, turn fields and
`totalPieces` included. -/
theorem C6_error_leaves_state (g : GameState) (u : String) (x y : Int)
    (e : MoveError) (h : (makeMove g u x y).err = some e) :
    (makeMove g u x y).state = g := by
  rcases makeMove_shape g u x y with ⟨-, hst, -⟩ | ⟨hnone, -⟩
  · exact hst
  · rw [hnone] at h
    simp at h

/-- C6 witness: the state is unchanged by a rejected wrong-turn move. -/
theorem C6_error_leaves_state_witness :
    (makeMove (startGame "alice" "bob") "zed" 0 0).state = startGame "alice" "bob" :=
  C6_error_leaves_state (startGame "alice" "bob") "zed" 0 0 MoveError.WrongTurn (by decide)

/-!  ### Counting lemmas and the piece-count invariant (claim C7)  -/

lemma placePiece_board (g : GameState) (x y : Int) :
    (placePiece g x y).board = setCell g.board (toIdx x) (toIdx y) g.currPiece := by
  unfold placePiece
  split <;> rfl

lemma placePiece_totalPieces (g : GameState) (x y : Int) :
    (placePiece g x y).totalPieces = g.totalPieces + 1 := by
  unfold placePiece
  split <;> rfl

lemma countNonBlank_setCell (b : Board) (ix iy : Fin boardSize) (p : Piece)
    (hb : b ix iy = B) (hp : p ≠ B) :
    countNonBlank (setCell b ix iy p) = countNonBlank b + 1 := by
  unfold countNonBlank
  have hset :
      (Finset.univ.filter fun q : Fin boardSize × Fin boardSize =>
          setCell b ix iy p q.1 q.2 ≠ B) =
        insert (ix, iy)
          (Finset.univ.filter fun q : Fin boardSize × Fin boardSize => b q.1 q.2 ≠ B) := by
    ext ⟨i, j⟩
    by_cases hq : i = ix ∧ j = iy
    · obtain ⟨hi, hj⟩ := hq
      subst hi
      subst hj
      simp [setCell, hp]
    · have hne : ((i, j) : Fin boardSize × Fin boardSize) ≠ (ix, iy) := by
        simp only [ne_eq, Prod.mk.injEq]
        exact hq
      simp [setCell, hq, hne]
  rw [hset, Finset.card_insert_of_not_mem (by simp [hb])]

lemma countNonBlank_le (b : Board) : countNonBlank b ≤ boardSize * boardSize := by
  have h := Finset.card_filter_le (Finset.univ : Finset (Fin boardSize × Fin boardSize))
    (fun q => b q.1 q.2 ≠ B)
  exact le_trans h (by simp)

lemma stateInv_start (userA userB : String) : StateInv (startGame userA userB) :=
  ⟨by simp [startGame], by simp [startGame, countNonBlank, initBoard]⟩

lemma stateInv_step (g : GameState) (u : String) (x y : Int) (h : StateInv g) :
    StateInv (makeMove g u x y).state ∧
    ((makeMove g u x y).err = none →
      (makeMove g u x y).state.totalPieces = g.totalPieces + 1) ∧
    ((makeMove g u x y).err ≠ none →
      (makeMove g u x y).state.totalPieces = g.totalPieces) := by
  rcases makeMove_shape g u x y with ⟨hne, hst, -⟩ |
    ⟨hnone, h1, h2, h3, hres, hboard, ho, hx, htot, hpc⟩
  · exact ⟨by rw [hst]; exact h, fun he => absurd he hne, fun _ => by rw [hst]⟩
  · have hb' : (makeMove g u x y).state.board =
        setCell g.board (toIdx x) (toIdx y) g.currPiece := by
      rw [hboard, placePiece_board]
    have htot' : (makeMove g u x y).state.totalPieces = g.totalPieces + 1 := by
      rw [htot, placePiece_totalPieces]
    refine ⟨⟨?_, ?_⟩, fun _ => htot', fun hc => absurd hnone hc⟩
    · rcases hpc with hpc | hpc
      · rw [hpc]
        exact h.1
      · rw [hpc]
        split <;> simp
    · rw [htot', hb',
        countNonBlank_setCell g.board (toIdx x) (toIdx y) g.currPiece h3 h.1, h.2]

lemma stateInv_run (ms : List (String × Int × Int)) :
    ∀ g : GameState, StateInv g →
      StateInv (runMoves g ms).1 ∧
      (runMoves g ms).1.totalPieces = g.totalPieces + (runMoves g ms).2 := by
  induction ms with
  | nil => exact fun g h => ⟨h, by simp [runMoves]⟩
  | cons m ms ih =>
    intro g h
    obtain ⟨u, x, y⟩ := m
    have hstep := stateInv_step g u x y h
    have hrec := ih (makeMove g u x y).state hstep.1
    refine ⟨hrec.1, ?_⟩
    show (runMoves (makeMove g u x y).state ms).1.totalPieces =
      g.totalPieces + ((if (makeMove g u x y).err = none then 1 else 0) +
        (runMoves (makeMove g u x y).state ms).2)
    rw [hrec.2]
    by_cases he : (makeMove g u x y).err = none
    · have := hstep.2.1 he
      rw [if_pos he]
      omega
    · have := hstep.2.2 he
      rw [if_neg he]
      omega

/-!  ### Claim C7: totalPieces equals successful moves and non-blank cells  -/

/-- C7: after any sequence of `makeMove` calls from `startGame`,
`totalPieces` equals the number of calls that succeeded, equals the number
of non-blank cells on the board, and never exceeds `N * N`. -/
theorem C7_totalPieces_counts (userA userB : String) (ms : List (String × Int × Int)) :
    (runMoves (startGame userA userB) ms).1.totalPieces =
        (runMoves (startGame userA userB) ms).2 ∧
    (runMoves (startGame userA userB) ms).1.totalPieces =
        countNonBlank (runMoves (startGame userA userB) ms).1.board ∧
    (runMoves (startGame userA userB) ms).1.totalPieces ≤ boardSize * boardSize := by
  have h := stateInv_run ms (startGame userA userB) (stateInv_start userA userB)
  refine ⟨?_, h.1.2, ?_⟩
  · rw [h.2]
    show (0 : Nat) + _ = _
    rw [Nat.zero_add]
  · rw [h.1.2]
    exact countNonBlank_le _

/-!  ### The diagonal-counter invariant (claim C10)  -/

lemma placePiece_currPiece (g : GameState) (x y : Int) :
    (placePiece g x y).currPiece = g.currPiece := by
  unfold placePiece
  split <;> rfl

/-- The classifier `getDiag` is non-negative exactly on the four corner cells. -/
lemma getDiag_nonneg_iff (x y : Int) :
    0 ≤ getDiag x y ↔
      ((x = 0 ∧ y = 0) ∨ (x = 2 ∧ y = 2) ∨ (x = 2 ∧ y = 0) ∨ (x = 0 ∧ y = 2)) := by
  unfold getDiag
  split
  · next h => exact iff_of_true (by norm_num) (by norm_num at h; tauto)
  · split
    · next h2 => exact iff_of_true (by norm_num) (by norm_num at h2; tauto)
    · next h1 h2 => exact iff_of_false (by norm_num) (by norm_num at h1 h2; tauto)

lemma diagInv_start (userA userB : String) : DiagInv (startGame userA userB) := by
  refine ⟨?_, ?_, ?_, ?_⟩ <;> simp [startGame, zeroCounts, initBoard]

lemma diagInv_le (g : GameState) (h : DiagInv g) :
    ∀ d : Fin 2, g.oCounts.diags d ≤ 2 ∧ g.xCounts.diags d ≤ 2 := by
  intro d
  fin_cases d
  · show g.oCounts.diags 0 ≤ 2 ∧ g.xCounts.diags 0 ≤ 2
    exact ⟨by rw [h.1]; split_ifs <;> omega, by rw [h.2.2.1]; split_ifs <;> omega⟩
  · show g.oCounts.diags 1 ≤ 2 ∧ g.xCounts.diags 1 ≤ 2
    exact ⟨by rw [h.2.1]; split_ifs <;> omega, by rw [h.2.2.2]; split_ifs <;> omega⟩

set_option maxHeartbeats 2000000 in
lemma diagInv_place (g : GameState) (x y : Int) (h : DiagInv g)
    (hr : ¬(x < 0 ∨ (boardSize : Int) ≤ x ∨ y < 0 ∨ (boardSize : Int) ≤ y))
    (hb : g.board (toIdx x) (toIdx y) = B)
    (hpc : g.currPiece ≠ B) :
    DiagInv (placePiece g x y) := by
  push_neg at hr
  obtain ⟨hx0, hx1, hy0, hy1⟩ := hr
  obtain ⟨ho0, ho1, hc0, hc1⟩ := h
  cases hcp : g.currPiece with
  | B => exact absurd hcp hpc
  | O =>
    interval_cases x <;> interval_cases y <;>
      refine ⟨?_, ?_, ?_, ?_⟩ <;>
        simp_all [DiagInv, placePiece, incrCounts, setCell, getDiag, diagIdx,
          toIdx_ofNat_zero, toIdx_ofNat_one, toIdx_ofNat_two, Fin.ext_iff] <;>
        omega
  | X =>
    interval_cases x <;> interval_cases y <;>
      refine ⟨?_, ?_, ?_, ?_⟩ <;>
        simp_all [DiagInv, placePiece, incrCounts, setCell, getDiag, diagIdx,
          toIdx_ofNat_zero, toIdx_ofNat_one, toIdx_ofNat_two, Fin.ext_iff] <;>
        omega

lemma diagInv_step (g : GameState) (u : String) (x y : Int)
    (hs : StateInv g) (hd : DiagInv g) : DiagInv (makeMove g u x y).state := by
  rcases makeMove_shape g u x y with ⟨-, hst, -⟩ |
    ⟨-, -, h2, h3, -, hboard, ho, hx, -, -⟩
  · rw [hst]
    exact hd
  · have h' := diagInv_place g x y hd h2 h3 hs.1
    unfold DiagInv at h' ⊢
    rw [hboard, ho, hx]
    exact h'

lemma fullInv_run (ms : List (String × Int × Int)) :
    ∀ g : GameState, StateInv g → DiagInv g →
      StateInv (runMoves g ms).1 ∧ DiagInv (runMoves g ms).1 := by
  induction ms with
  | nil => exact fun g hs hd => ⟨hs, hd⟩
  | cons m ms ih =>
    intro g hs hd
    obtain ⟨u, x, y⟩ := m
    exact ih (makeMove g u x y).state (stateInv_step g u x y hs).1
      (diagInv_step g u x y hs hd)

/-- A `makeMove` call changes a diagonal counter of either player only when
the move lands on one of the four corner cells. -/
lemma diags_change_corner (g : GameState) (u : String) (x y : Int) :
    ((makeMove g u x y).state.oCounts.diags ≠ g.oCounts.diags ∨
      (makeMove g u x y).state.xCounts.diags ≠ g.xCounts.diags) →
    ((x = 0 ∧ y = 0) ∨ (x = 2 ∧ y = 2) ∨ (x = 2 ∧ y = 0) ∨ (x = 0 ∧ y = 2)) := by
  intro hd
  rcases makeMove_shape g u x y with ⟨-, hst, -⟩ |
    ⟨-, -, -, -, -, -, ho, hx, -, -⟩
  · rw [hst] at hd
    rcases hd with hd | hd <;> exact absurd rfl hd
  · rw [← getDiag_nonneg_iff]
    by_contra hneg
    have hsame : (placePiece g x y).oCounts.diags = g.oCounts.diags ∧
        (placePiece g x y).xCounts.diags = g.xCounts.diags := by
      unfold placePiece incrCounts
      split <;> exact ⟨by simp [hneg], by simp [hneg]⟩
    rcases hd with hd | hd
    · exact hd (by rw [ho, hsame.1])
    · exact hd (by rw [hx, hsame.2])

/-- Inversion of `checkGameOver` for an `OWin` verdict. -/
lemma checkGameOver_OWin_iff (g : GameState) (x y : Int) :
    checkGameOver g x y = OWin ↔
      g.currPiece = O ∧
        ((0 ≤ getDiag x y ∧ g.oCounts.diags (diagIdx (getDiag x y)) = boardSize) ∨
          g.oCounts.rows (toIdx x) = boardSize ∨
          g.oCounts.cols (toIdx y) = boardSize) := by
  unfold checkGameOver
  split
  · next hcp =>
    split
    · next hW => exact iff_of_true rfl ⟨hcp, hW⟩
    · next hW =>
      refine iff_of_false ?_ fun hc => hW hc.2
      split <;> simp
  · next hcp =>
    refine iff_of_false ?_ fun hc => hcp hc.1
    split
    · simp
    · split <;> simp

/-- Inversion of `checkGameOver` for an `XWin` verdict. -/
lemma checkGameOver_XWin_iff (g : GameState) (x y : Int) :
    checkGameOver g x y = XWin ↔
      ¬ g.currPiece = O ∧
        ((0 ≤ getDiag x y ∧ g.xCounts.diags (diagIdx (getDiag x y)) = boardSize) ∨
          g.xCounts.rows (toIdx x) = boardSize ∨
          g.xCounts.cols (toIdx x) = boardSize) := by
  unfold checkGameOver
  split
  · next hcp =>
    refine iff_of_false ?_ fun hc => hc.1 hcp
    split
    · simp
    · split <;> simp
  · next hcp =>
    split
    · next hW => exact iff_of_true rfl ⟨hcp, hW⟩
    · next hW =>
      refine iff_of_false ?_ fun hc => hW hc.2
      split <;> simp

/-- On states satisfying the two invariants, a successful move that is
reported as a win is always a row or column win: the diagonal disjunct of
`checkGameOver` can never fire, its counters being at most 2. -/
lemma win_not_by_diag (g : GameState) (u : String) (x y : Int)
    (hs : StateInv g) (hd : DiagInv g)
    (hok : (makeMove g u x y).err = none) :
    ((makeMove g u x y).result = OWin →
      (makeMove g u x y).state.oCounts.rows (toIdx x) = boardSize ∨
      (makeMove g u x y).state.oCounts.cols (toIdx y) = boardSize) ∧
    ((makeMove g u x y).result = XWin →
      (makeMove g u x y).state.xCounts.rows (toIdx x) = boardSize ∨
      (makeMove g u x y).state.xCounts.cols (toIdx x) = boardSize) := by
  rcases makeMove_shape g u x y with ⟨hne, -, -⟩ |
    ⟨-, -, h2, h3, hres, -, ho, hx, -, -⟩
  · exact absurd hok hne
  · have hd' : DiagInv (placePiece g x y) := diagInv_place g x y hd h2 h3 hs.1
    have hle := diagInv_le (placePiece g x y) hd'
    rw [hres, ho, hx]
    constructor
    · intro hwin
      rw [checkGameOver_OWin_iff] at hwin
      rcases hwin.2 with ⟨-, h3eq⟩ | hrow | hcol
      · exact absurd (h3eq ▸ (hle (diagIdx (getDiag x y))).1) (by decide)
      · exact Or.inl hrow
      · exact Or.inr hcol
    · intro hwin
      rw [checkGameOver_XWin_iff] at hwin
      rcases hwin.2 with ⟨-, h3eq⟩ | hrow | hcol
      · exact absurd (h3eq ▸ (hle (diagIdx (getDiag x y))).2) (by decide)
      · exact Or.inl hrow
      · exact Or.inr hcol

/-!  ### Claim C10: diagonal counters and diagonal wins  -/

/-- C10: on any state reachable from `startGame` by a sequence of moves,
both players' diagonal counters are at most 2; a further `makeMove` changes
a diagonal counter only if it lands on one of the four corner cells; and a
win reported by a successful further move is always witnessed by the row
counter at `x` or the column counter the code consults — never by the
diagonal disjunct alone. -/
theorem C10_diagonal_corners (userA userB : String) (ms : List (String × Int × Int))
    (u : String) (x y : Int) :
    (∀ d : Fin 2,
      (runMoves (startGame userA userB) ms).1.oCounts.diags d ≤ 2 ∧
      (runMoves (startGame userA userB) ms).1.xCounts.diags d ≤ 2) ∧
    (((makeMove (runMoves (startGame userA userB) ms).1 u x y).state.oCounts.diags ≠
        (runMoves (startGame userA userB) ms).1.oCounts.diags ∨
      (makeMove (runMoves (startGame userA userB) ms).1 u x y).state.xCounts.diags ≠
        (runMoves (startGame userA userB) ms).1.xCounts.diags) →
      ((x = 0 ∧ y = 0) ∨ (x = 2 ∧ y = 2) ∨ (x = 2 ∧ y = 0) ∨ (x = 0 ∧ y = 2))) ∧
    ((makeMove (runMoves (startGame userA userB) ms).1 u x y).err = none →
      ((makeMove (runMoves (startGame userA userB) ms).1 u x y).result = GameResult.OWin →
        (makeMove (runMoves (startGame userA userB) ms).1 u x y).state.oCounts.rows
            (toIdx x) = boardSize ∨
        (makeMove (runMoves (startGame userA userB) ms).1 u x y).state.oCounts.cols
            (toIdx y) = boardSize) ∧
      ((makeMove (runMoves (startGame userA userB) ms).1 u x y).result = GameResult.XWin →
        (makeMove (runMoves (startGame userA userB) ms).1 u x y).state.xCounts.rows
            (toIdx x) = boardSize ∨
        (makeMove (runMoves (startGame userA userB) ms).1 u x y).state.xCounts.cols
            (toIdx x) = boardSize)) := by
  obtain ⟨hs, hd⟩ := fullInv_run ms (startGame userA userB)
    (stateInv_start userA userB) (diagInv_start userA userB)
  exact ⟨diagInv_le (runMoves (startGame userA userB) ms).1 hd,
    diags_change_corner (runMoves (startGame userA userB) ms).1 u x y,
    fun hok => win_not_by_diag (runMoves (startGame userA userB) ms).1 u x y hs hd hok⟩

/-- C10 witness: after four successful moves, O's winning fifth move at the
corner `(0, 2)` is a row win, and it changes a diagonal counter only
because `(0, 2)` is a corner. -/
theorem C10_diagonal_corners_witness :
    ((makeMove (runMoves (startGame "alice" "bob")
        [("alice", 0, 0), ("", 1, 0), ("alice", 0, 1), ("", 1, 1)]).1
        "alice" 0 2).state.oCounts.rows (toIdx 0) = boardSize ∨
      (makeMove (runMoves (startGame "alice" "bob")
        [("alice", 0, 0), ("", 1, 0), ("alice", 0, 1), ("", 1, 1)]).1
        "alice" 0 2).state.oCounts.cols (toIdx 2) = boardSize) ∧
    (((0 : Int) = 0 ∧ (2 : Int) = 0) ∨ ((0 : Int) = 2 ∧ (2 : Int) = 2) ∨
      ((0 : Int) = 2 ∧ (2 : Int) = 0) ∨ ((0 : Int) = 0 ∧ (2 : Int) = 2)) := by
  have h := C10_diagonal_corners "alice" "bob"
    [("alice", 0, 0), ("", 1, 0), ("alice", 0, 1), ("", 1, 1)] "alice" 0 2
  exact ⟨(h.2.2 (by decide)).1 (by decide), h.2.1 (by decide)⟩

/-!  ### Claim C8: tie on the board-filling move, win checked first  -/

/-- Full outcome characterization of `checkGameOver`: for the moving
player, the verdict is `Tie` exactly when the board is full and the
three-disjunct win test (diagonal, row, and the column the branch
consults) does not hold; whenever that win test holds, the mover's win is
returned regardless of the tie condition (the win test precedes the tie
test); and a full board never yields `Pending`. -/
lemma checkGameOver_spec (g : GameState) (x y : Int) :
    (g.currPiece = O →
      ((checkGameOver g x y = Tie ↔
          g.totalPieces = boardSize * boardSize ∧
          ¬((0 ≤ getDiag x y ∧ g.oCounts.diags (diagIdx (getDiag x y)) = boardSize) ∨
            g.oCounts.rows (toIdx x) = boardSize ∨
            g.oCounts.cols (toIdx y) = boardSize)) ∧
        (((0 ≤ getDiag x y ∧ g.oCounts.diags (diagIdx (getDiag x y)) = boardSize) ∨
            g.oCounts.rows (toIdx x) = boardSize ∨
            g.oCounts.cols (toIdx y) = boardSize) →
          checkGameOver g x y = OWin))) ∧
    (¬ g.currPiece = O →
      ((checkGameOver g x y = Tie ↔
          g.totalPieces = boardSize * boardSize ∧
          ¬((0 ≤ getDiag x y ∧ g.xCounts.diags (diagIdx (getDiag x y)) = boardSize) ∨
            g.xCounts.rows (toIdx x) = boardSize ∨
            g.xCounts.cols (toIdx x) = boardSize)) ∧
        (((0 ≤ getDiag x y ∧ g.xCounts.diags (diagIdx (getDiag x y)) = boardSize) ∨
            g.xCounts.rows (toIdx x) = boardSize ∨
            g.xCounts.cols (toIdx x) = boardSize) →
          checkGameOver g x y = XWin))) ∧
    (g.totalPieces = boardSize * boardSize → checkGameOver g x y ≠ Pending) := by
  unfold checkGameOver
  split
  · next hcp =>
    refine ⟨fun _ => ⟨?_, fun hW => ?_⟩, fun hc => absurd hcp hc, fun htot => ?_⟩
    · split
      · next hW => exact iff_of_false (by simp) fun hc => hc.2 hW
      · next hW =>
        split
        · next htot => exact iff_of_true rfl ⟨htot, hW⟩
        · next htot => exact iff_of_false (by simp) fun hc => htot hc.1
    · rw [if_pos hW]
    · split <;> simp [htot]
  · next hcp =>
    refine ⟨fun hO => absurd hO hcp, fun _ => ⟨?_, fun hW => ?_⟩, fun htot => ?_⟩
    · split
      · next hW => exact iff_of_false (by simp) fun hc => hc.2 hW
      · next hW =>
        split
        · next htot => exact iff_of_true rfl ⟨htot, hW⟩
        · next htot => exact iff_of_false (by simp) fun hc => htot hc.1
    · rw [if_pos hW]
    · split <;> simp [htot]

/-- C8 (amended): on a successful move, the result is `Tie` exactly when
the board has become full and the mover's incremental win check — the
three-disjunct test `checkGameOver` performs on the updated counters — did
not fire; the win condition is evaluated before the board-full condition,
so a final move on which any disjunct of the win check fires returns the
corresponding win, not `Tie`; and a board-filling move never returns
`Pending`.  (A line completed only through the uncounted center diagonal
cell does not fire the check — see the counterexample — which is the one
way "completes a line" can fail to produce the win.) -/
theorem C8_win_before_tie (g : GameState) (u : String) (x y : Int)
    (hok : (makeMove g u x y).err = none) :
    (g.currPiece = O →
      (((makeMove g u x y).result = GameResult.Tie ↔
          (makeMove g u x y).state.totalPieces = boardSize * boardSize ∧
          ¬((0 ≤ getDiag x y ∧
              (makeMove g u x y).state.oCounts.diags (diagIdx (getDiag x y)) = boardSize) ∨
            (makeMove g u x y).state.oCounts.rows (toIdx x) = boardSize ∨
            (makeMove g u x y).state.oCounts.cols (toIdx y) = boardSize)) ∧
        (((0 ≤ getDiag x y ∧
              (makeMove g u x y).state.oCounts.diags (diagIdx (getDiag x y)) = boardSize) ∨
            (makeMove g u x y).state.oCounts.rows (toIdx x) = boardSize ∨
            (makeMove g u x y).state.oCounts.cols (toIdx y) = boardSize) →
          (makeMove g u x y).result = GameResult.OWin))) ∧
    (¬ g.currPiece = O →
      (((makeMove g u x y).result = GameResult.Tie ↔
          (makeMove g u x y).state.totalPieces = boardSize * boardSize ∧
          ¬((0 ≤ getDiag x y ∧
              (makeMove g u x y).state.xCounts.diags (diagIdx (getDiag x y)) = boardSize) ∨
            (makeMove g u x y).state.xCounts.rows (toIdx x) = boardSize ∨
            (makeMove g u x y).state.xCounts.cols (toIdx x) = boardSize)) ∧
        (((0 ≤ getDiag x y ∧
              (makeMove g u x y).state.xCounts.diags (diagIdx (getDiag x y)) = boardSize) ∨
            (makeMove g u x y).state.xCounts.rows (toIdx x) = boardSize ∨
            (makeMove g u x y).state.xCounts.cols (toIdx x) = boardSize) →
          (makeMove g u x y).result = GameResult.XWin))) ∧
    ((makeMove g u x y).state.totalPieces = boardSize * boardSize →
      (makeMove g u x y).result ≠ GameResult.Pending) := by
  rcases makeMove_shape g u x y with ⟨hne, -, -⟩ |
    ⟨-, -, -, -, hres, -, ho, hx, htot, -⟩
  · exact absurd hok hne
  · have hc := checkGameOver_spec (placePiece g x y) x y
    rw [placePiece_currPiece] at hc
    rw [hres, ho, hx, htot]
    exact hc

/-- C8 counterexample: the ninth move fills the board *and* completes the
main diagonal for O — all of `(0,0)`, `(1,1)`, `(2,2)` hold O afterwards —
yet the result is `Tie`, not the corresponding win the claim promises. -/
theorem C8_counterexample :
    (runMoves (startGame "alice" "bob")
      [("alice", 0, 0), ("", 0, 2), ("alice", 2, 2), ("", 1, 2),
       ("alice", 0, 1), ("", 2, 0), ("alice", 1, 0), ("", 2, 1)]).2 = 8 ∧
    (makeMove c8diag "alice" 1 1).err = none ∧
    (makeMove c8diag "alice" 1 1).state.totalPieces = boardSize * boardSize ∧
    (makeMove c8diag "alice" 1 1).state.board (toIdx 0) (toIdx 0) = Piece.O ∧
    (makeMove c8diag "alice" 1 1).state.board (toIdx 1) (toIdx 1) = Piece.O ∧
    (makeMove c8diag "alice" 1 1).state.board (toIdx 2) (toIdx 2) = Piece.O ∧
    (makeMove c8diag "alice" 1 1).result = GameResult.Tie := by decide

/-- C8 witness: the classic drawn ninth move is `Tie` (board full, win
check not fired) and is not `Pending`, and a ninth move that fills the
board while completing row 0 fires the win check and returns `OWin`, not
`Tie`. -/
theorem C8_win_before_tie_witness :
    (makeMove c8tie "alice" 2 2).result = GameResult.Tie ∧
    (makeMove c8tie "alice" 2 2).result ≠ GameResult.Pending ∧
    (makeMove c8row "alice" 0 2).result = GameResult.OWin := by
  have h1 := C8_win_before_tie c8tie "alice" 2 2 (by decide)
  have h2 := C8_win_before_tie c8row "alice" 0 2 (by decide)
  exact ⟨(h1.1 (by decide)).1.mpr (by decide), h1.2.2 (by decide),
    (h2.1 (by decide)).2 (by decide)⟩

end TicTacToe
